import Mathlib

/-!
Verification of the single-tape Turing machine simulator
(src/turing_machine.py of JavierBenitez112/Proyecto-3).

The Python code is shallowly embedded: symbols on the tape, cache
values and the blank-able transition fields are `Option String`
(Python `Optional[str]`, where `None` denotes blank); the step loop of
`TuringMachine.simulate` becomes a fuel-based recursion with fuel
10000 (the `max_steps` constant of the source); the run is
instrumented with the number of applied transitions and the halting
reason, which the Python code exhibits only through its control flow.
-/

/-- Embedding of the `Transition` dataclass (turing_machine.py, lines 10-19). -/
structure Transition where
  initial_state : String
  mem_cache_value : Option String
  tape_input : Option String
  final_state : String
  new_mem_cache_value : Option String
  tape_output : Option String
  tape_displacement : String
deriving DecidableEq, Repr

/-- Embedding of the `TuringMachine` object after `__init__` has run
(turing_machine.py, lines 22-77). -/
structure TuringMachine where
  states : List String
  initial_state : String
  final_state : String
  alphabet : List String
  tape_alphabet : List String
  transitions : List Transition
  simulation_strings : List String
deriving DecidableEq, Repr

/-- Blank normalization used throughout `__init__` and for the tape
operand inside `find_transition`: Python's
`if x is None or x == '': x = None` (lines 49-50, 54-55, 58-59, 62-63,
104-106). -/
def normBlank : Option String → Option String
  | none => none
  | some s => if s = "" then none else some s

/-- Parameters of a `delta` entry of the configuration dictionary
(fields read at turing_machine.py lines 44-55; `mem_cache_value` is read
with `.get`, so an absent key is `none`). -/
structure DeltaParams where
  initial_state : String
  mem_cache_value : Option String
  tape_input : Option String
deriving DecidableEq, Repr

/-- Output part of a `delta` entry (turing_machine.py lines 57-72). -/
structure DeltaOutput where
  final_state : String
  mem_cache_value : Option String
  tape_output : Option String
  tape_displacement : String
deriving DecidableEq, Repr

/-- One `delta` list element of the configuration. -/
structure DeltaItem where
  params : DeltaParams
  output : DeltaOutput
deriving DecidableEq, Repr

/-- The configuration dictionary handed to `TuringMachine.__init__`
(schema in spec section 6; fields read at turing_machine.py
lines 33-77). -/
structure Config where
  q_list : List String
  initial : String
  final : String
  alphabet : List String
  tape_alphabet : List String
  delta : List DeltaItem
  simulation_strings : List String
deriving DecidableEq, Repr

/-- Construction of one `Transition` from a `delta` item, with the blank
normalization of `__init__` (turing_machine.py lines 47-73). -/
def mkTransition (d : DeltaItem) : Transition where
  initial_state := d.params.initial_state
  mem_cache_value := normBlank d.params.mem_cache_value
  tape_input := normBlank d.params.tape_input
  final_state := d.output.final_state
  new_mem_cache_value := normBlank d.output.mem_cache_value
  tape_output := normBlank d.output.tape_output
  tape_displacement := d.output.tape_displacement

/-- Embedding of `TuringMachine.__init__` (turing_machine.py, lines 25-77). -/
def TuringMachine.ofConfig (c : Config) : TuringMachine where
  states := c.q_list
  initial_state := c.initial
  final_state := c.final
  alphabet := c.alphabet
  tape_alphabet := c.tape_alphabet
  transitions := c.delta.map mkTransition
  simulation_strings := c.simulation_strings

/-- Embedding of `TuringMachine.find_transition` (turing_machine.py, lines
79-111): scan the transition list in declaration order; skip an entry
unless its `initial_state` equals `state` and its `mem_cache_value` equals
`mem_cache` (raw equality, line 99); re-normalize the entry's `tape_input`
(lines 103-106) and compare it with the given `tape_symbol` (raw on the
query side; line 93 of the source, `tape_input = tape_symbol if
tape_symbol is not None else None`, is the identity). -/
def TuringMachine.find_transition (M : TuringMachine) (state : String)
    (mem_cache : Option String) (tape_symbol : Option String) : Option Transition :=
  M.transitions.find? fun t =>
    t.initial_state == state && t.mem_cache_value == mem_cache &&
      normBlank t.tape_input == tape_symbol

/-- Embedding of `_symbol_to_str` (turing_machine.py, lines 226-238):
blank renders as the literal character B. -/
def symbolToStr : Option String → String
  | none => "B"
  | some s => s

/-- Embedding of `_create_instant_description` (turing_machine.py, lines
188-224). -/
def createID (tape : List (Option String)) (position : Int)
    (state : String) (cache : Option String) : String :=
  let state_part :=
    "[" ++ state ++ (match cache with | none => "" | some c => "," ++ c) ++ "]"
  if position < 0 then
    state_part ++ "B" ++ String.join (tape.map symbolToStr)
  else if position ≥ (tape.length : Int) then
    String.join (tape.map symbolToStr) ++ state_part ++ "B"
  else
    let p := position.toNat
    String.join ((tape.take p).map symbolToStr) ++ state_part ++
      symbolToStr (tape.getD p none) ++
      String.join ((tape.drop (p + 1)).map symbolToStr)

/-- The tape-extension performed at the top of each loop iteration of
`simulate` (turing_machine.py, lines 141-147): a negative head position
inserts one blank at the front, a position at or past the end appends one
blank. -/
def extendTape (tape : List (Option String)) (pos : Int) : List (Option String) :=
  if pos < 0 then none :: tape
  else if pos ≥ (tape.length : Int) then tape ++ [none]
  else tape

/-- The head-position adjustment paired with `extendTape`: a negative
position is reset to 0 (turing_machine.py, line 144); otherwise it is
unchanged. -/
def extendPos (pos : Int) : Int :=
  if pos < 0 then 0 else pos

/-- Why a run stopped. The Python loop distinguishes the three cases by
control flow: `return ..., True` at line 181, `break` at line 156
followed by `return ..., False`, and falling out of `while step <
max_steps`. -/
inductive HaltReason where
  | acceptedFinal
  | noTransition
  | outOfFuel
deriving DecidableEq, Repr

/-- Result of the step loop: the instantaneous descriptions appended
after the initial one, the verdict, the number of transitions applied,
the halting reason, and the final tape. -/
structure LoopResult where
  ids : List String
  accepted : Bool
  steps : Nat
  reason : HaltReason
  finalTape : List (Option String)
deriving Repr

/-- The `while` loop of `simulate` (turing_machine.py, lines 139-183),
as a fuel-based recursion. Each iteration: extend the tape if the head
is out of bounds, read the symbol under the head, look up a transition
(halt rejecting if none), apply it (write `tape_output`, move the head
per the displacement, L left, R right, anything else stays), append a
snapshot, and accept immediately when the new state is the final state. -/
def simLoop (M : TuringMachine) : Nat → List (Option String) → Int → String →
    Option String → LoopResult
  | 0, tape, _, _, _ => ⟨[], false, 0, .outOfFuel, tape⟩
  | fuel + 1, tape, pos, state, cache =>
    let tape1 := extendTape tape pos
    let pos1 := extendPos pos
    let symbol := tape1.getD pos1.toNat none
    match M.find_transition state cache symbol with
    | none => ⟨[], false, 0, .noTransition, tape1⟩
    | some t =>
      let state' := t.final_state
      let cache' := t.new_mem_cache_value
      let tape' := tape1.set pos1.toNat t.tape_output
      let pos' := if t.tape_displacement = "L" then pos1 - 1
                  else if t.tape_displacement = "R" then pos1 + 1 else pos1
      let id := createID tape' pos' state' cache'
      if state' = M.final_state then ⟨[id], true, 1, .acceptedFinal, tape'⟩
      else
        let r := simLoop M fuel tape' pos' state' cache'
        ⟨id :: r.ids, r.accepted, r.steps + 1, r.reason, r.finalTape⟩

/-- The `max_steps` constant of `simulate` (turing_machine.py, line 136). -/
def max_steps : Nat := 10000

/-- The initial tape of a run: `list(input_string)`, each input character
one cell (turing_machine.py, line 124). -/
def tapeOfInput (input : String) : List (Option String) :=
  input.toList.map fun c => some (String.singleton c)

/-- Instrumented result of a whole run. -/
structure SimResult where
  trace : List String
  accepted : Bool
  steps : Nat
  reason : HaltReason
  finalTape : List (Option String)
deriving Repr

/-- Embedding of `TuringMachine.simulate` (turing_machine.py, lines
113-186), instrumented: the trace starts with the snapshot of the initial
configuration (lines 130-134), then the loop runs with the step bound. -/
def TuringMachine.simulateFull (M : TuringMachine) (input : String) : SimResult :=
  let tape := tapeOfInput input
  let id0 := createID tape 0 M.initial_state none
  let r := simLoop M max_steps tape 0 M.initial_state none
  ⟨id0 :: r.ids, r.accepted, r.steps, r.reason, r.finalTape⟩

/-- The pair actually returned by `simulate`: the list of instantaneous
descriptions and the verdict. -/
def TuringMachine.simulate (M : TuringMachine) (input : String) :
    List String × Bool :=
  ((M.simulateFull input).trace, (M.simulateFull input).accepted)

/-- Number of transitions applied during the run on the given input. -/
def stepsExecuted (M : TuringMachine) (input : String) : Nat :=
  (M.simulateFull input).steps

/-- The machine of spec section 8's concrete example: states q0 and q1,
initial q0, final q1, one transition (q0, blank, a) to (q1, blank, a, R). -/
def exampleConfig : Config where
  q_list := ["q0", "q1"]
  initial := "q0"
  final := "q1"
  alphabet := ["a"]
  tape_alphabet := ["a"]
  delta := [⟨⟨"q0", none, some "a"⟩, ⟨"q1", none, some "a", "R"⟩⟩]
  simulation_strings := ["a"]

def exampleMachine : TuringMachine := TuringMachine.ofConfig exampleConfig

/-- Every loop iteration that applies a transition appends exactly one
instantaneous description, so the loop produces as many descriptions as
transitions applied. -/
theorem simLoop_length_eq_steps (M : TuringMachine) (fuel : Nat) :
    ∀ tape pos state cache,
      (simLoop M fuel tape pos state cache).ids.length =
        (simLoop M fuel tape pos state cache).steps := by
  induction fuel with
  | zero => intro tape pos state cache; rfl
  | succ n ih =>
    intro tape pos state cache
    simp only [simLoop]
    cases hf : M.find_transition state cache
        ((extendTape tape pos).getD (extendPos pos).toNat none) with
    | none => rfl
    | some t =>
      by_cases hs : t.final_state = M.final_state
      · simp [hs]
      · simp [hs, ih]

/-- The loop reports the verdict true exactly when it halted by reaching
the final state after applying a transition. -/
theorem simLoop_accepted_iff (M : TuringMachine) (fuel : Nat) :
    ∀ tape pos state cache,
      (simLoop M fuel tape pos state cache).accepted = true ↔
        (simLoop M fuel tape pos state cache).reason = HaltReason.acceptedFinal := by
  induction fuel with
  | zero => intro tape pos state cache; simp [simLoop]
  | succ n ih =>
    intro tape pos state cache
    simp only [simLoop]
    cases hf : M.find_transition state cache
        ((extendTape tape pos).getD (extendPos pos).toNat none) with
    | none => simp
    | some t =>
      by_cases hs : t.final_state = M.final_state
      · simp [hs]
      · simp [hs, ih]

/-- The loop applies at most as many transitions as it has fuel. -/
theorem simLoop_steps_le (M : TuringMachine) (fuel : Nat) :
    ∀ tape pos state cache,
      (simLoop M fuel tape pos state cache).steps ≤ fuel := by
  induction fuel with
  | zero => intro tape pos state cache; exact Nat.le_refl 0
  | succ n ih =>
    intro tape pos state cache
    simp only [simLoop]
    cases hf : M.find_transition state cache
        ((extendTape tape pos).getD (extendPos pos).toNat none) with
    | none => exact Nat.zero_le _
    | some t =>
      by_cases hs : t.final_state = M.final_state
      · simp [hs]
      · simp only [hs, if_false]
        exact Nat.succ_le_succ (ih _ _ _ _)

/-- A loop that ran out of fuel applied exactly fuel-many transitions. -/
theorem simLoop_outOfFuel_steps (M : TuringMachine) (fuel : Nat) :
    ∀ tape pos state cache,
      (simLoop M fuel tape pos state cache).reason = HaltReason.outOfFuel →
        (simLoop M fuel tape pos state cache).steps = fuel := by
  induction fuel with
  | zero => intro tape pos state cache _; rfl
  | succ n ih =>
    intro tape pos state cache
    simp only [simLoop]
    cases hf : M.find_transition state cache
        ((extendTape tape pos).getD (extendPos pos).toNat none) with
    | none => intro h; simp at h
    | some t =>
      by_cases hs : t.final_state = M.final_state
      · intro h; simp [hs] at h
      · intro h
        simp only [hs, if_false] at h ⊢
        exact congrArg (· + 1) (ih _ _ _ _ h)

/-- C1: the example machine on input a yields the trace
["[q0]a", "a[q1]B"] and the verdict accepted. -/
theorem C1_example_machine :
    exampleMachine.simulate "a" = (["[q0]a", "a[q1]B"], true) := by
  decide

/-- C2: the trace has exactly one entry more than the number of applied
transitions, and its first entry is the snapshot of the initial
configuration (initial state, blank cache, the input symbols on the tape,
head at position 0), taken before any step runs. -/
theorem C2_trace_length (M : TuringMachine) (input : String) :
    (M.simulate input).1.length = stepsExecuted M input + 1 ∧
      (M.simulate input).1.head? =
        some (createID (tapeOfInput input) 0 M.initial_state none) := by
  constructor
  · show (M.simulateFull input).trace.length = (M.simulateFull input).steps + 1
    simp [TuringMachine.simulateFull, simLoop_length_eq_steps]
  · rfl

/-- C3: the verdict is true exactly when the run halted because the current
state became the final state after a transition was applied; halting for
lack of a matching transition or by exhausting the step bound yields the
verdict false, returned as data next to the trace collected so far. -/
theorem C3_accept_iff_final (M : TuringMachine) (input : String) :
    ((M.simulate input).2 = true ↔
      (M.simulateFull input).reason = HaltReason.acceptedFinal) ∧
    ((M.simulateFull input).reason = HaltReason.noTransition ∨
      (M.simulateFull input).reason = HaltReason.outOfFuel →
        M.simulate input = ((M.simulateFull input).trace, false)) := by
  have hiff : (M.simulateFull input).accepted = true ↔
      (M.simulateFull input).reason = HaltReason.acceptedFinal := by
    simp [TuringMachine.simulateFull, simLoop_accepted_iff]
  constructor
  · exact hiff
  · intro h
    have hne : (M.simulateFull input).reason ≠ HaltReason.acceptedFinal := by
      rcases h with h | h <;> simp [h]
    have : (M.simulateFull input).accepted = false :=
      Bool.not_eq_true _ ▸ (by simpa [hiff] using hne)
    simp [TuringMachine.simulate, this]

/-- C4: every run applies at most 10000 transitions; a run that halted by
exhausting the step bound applied exactly 10000 transitions, has the
verdict false, and a trace of 10001 entries. -/
theorem C4_step_bound (M : TuringMachine) (input : String) :
    stepsExecuted M input ≤ 10000 ∧
      ((M.simulateFull input).reason = HaltReason.outOfFuel →
        stepsExecuted M input = 10000 ∧ (M.simulate input).2 = false ∧
          (M.simulate input).1.length = 10001) := by
  constructor
  · exact simLoop_steps_le M max_steps _ _ _ _
  · intro h
    have hsteps : stepsExecuted M input = 10000 :=
      simLoop_outOfFuel_steps M max_steps _ _ _ _ h
    refine ⟨hsteps, ?_, ?_⟩
    · have hne : (M.simulateFull input).reason ≠ HaltReason.acceptedFinal := by
        simp [h]
      have : ¬((M.simulate input).2 = true) := by
        intro htrue
        exact hne ((simLoop_accepted_iff M max_steps _ _ _ _).mp htrue)
      exact Bool.not_eq_true _ ▸ this
    · have hlen : (M.simulate input).1.length = stepsExecuted M input + 1 := by
        show (M.simulateFull input).trace.length = (M.simulateFull input).steps + 1
        simp [TuringMachine.simulateFull, simLoop_length_eq_steps]
      rw [hlen, hsteps]

/-- A machine that loops forever: its single transition stays in place in
state q, never reaching the final state f, and matches the blank cell
under the head at every step. -/
def loopConfig : Config where
  q_list := ["q", "f"]
  initial := "q"
  final := "f"
  alphabet := []
  tape_alphabet := []
  delta := [⟨⟨"q", none, none⟩, ⟨"q", none, none, "S"⟩⟩]
  simulation_strings := []

def loopMachine : TuringMachine := TuringMachine.ofConfig loopConfig

/-- One iteration of the looping machine from the blank one-cell tape
returns to the same configuration. -/
theorem loopMachine_step (n : Nat) :
    simLoop loopMachine (n + 1) [none] 0 "q" none =
      (let r := simLoop loopMachine n [none] 0 "q" none
       ⟨createID [none] 0 "q" none :: r.ids, r.accepted, r.steps + 1,
        r.reason, r.finalTape⟩) := rfl

/-- The looping machine exhausts any amount of fuel. -/
theorem loopMachine_runs_out (fuel : Nat) :
    (simLoop loopMachine fuel [none] 0 "q" none).reason = HaltReason.outOfFuel := by
  induction fuel with
  | zero => rfl
  | succ n ih => rw [loopMachine_step n]; exact ih

/-- The first iteration of the looping machine on the empty input lands on
the blank one-cell tape in state q. -/
theorem loopMachine_step0 (n : Nat) :
    simLoop loopMachine (n + 1) (tapeOfInput "") 0 loopMachine.initial_state none =
      (let r := simLoop loopMachine n [none] 0 "q" none
       ⟨createID [none] 0 "q" none :: r.ids, r.accepted, r.steps + 1,
        r.reason, r.finalTape⟩) := rfl

/-- The looping machine on the empty input exhausts any amount of fuel. -/
theorem loopMachine_runs_out_empty (fuel : Nat) :
    (simLoop loopMachine fuel (tapeOfInput "") 0
      loopMachine.initial_state none).reason = HaltReason.outOfFuel := by
  cases fuel with
  | zero => rfl
  | succ n => rw [loopMachine_step0 n]; exact loopMachine_runs_out n

/-- The halting reason of a run is the halting reason of its loop. -/
theorem simulateFull_reason (M : TuringMachine) (input : String) :
    (M.simulateFull input).reason =
      (simLoop M max_steps (tapeOfInput input) 0 M.initial_state none).reason := rfl

/-- Witness: the looping machine on the empty input exhausts the step
bound, so C4 yields the exact step count, verdict and trace length. -/
theorem C4_step_bound_witness :
    stepsExecuted loopMachine "" = 10000 ∧ (loopMachine.simulate "").2 = false ∧
      (loopMachine.simulate "").1.length = 10001 :=
  (C4_step_bound loopMachine "").2
    ((simulateFull_reason loopMachine "").trans (loopMachine_runs_out_empty max_steps))

/-- The matching rule exactly as spec section 4.1 words it: from_state
equal, cache_in equal to the given cache under blank-normalized equality
on both sides, tape_in equal to the given symbol under blank-normalized
equality on both sides. -/
def specMatchesB (t : Transition) (state : String)
    (cache symbol : Option String) : Bool :=
  t.initial_state == state && normBlank t.mem_cache_value == normBlank cache &&
    normBlank t.tape_input == normBlank symbol

/-- Normalizing a blank encoding twice changes nothing. -/
theorem normBlank_idem (x : Option String) :
    normBlank (normBlank x) = normBlank x := by
  cases x with
  | none => rfl
  | some s =>
    by_cases h : s = "" <;> simp [normBlank, h]

/-- Normalization is the identity away from the empty-string encoding. -/
theorem normBlank_eq_self {x : Option String} (h : x ≠ some "") :
    normBlank x = x := by
  cases x with
  | none => rfl
  | some s =>
    have hs : s ≠ "" := fun he => h (by rw [he])
    simp [normBlank, hs]

/-- Two pointwise-equal predicates find the same first element. -/
theorem find?_congr_pred {α : Type} (l : List α) (p q : α → Bool)
    (h : ∀ x ∈ l, p x = q x) : l.find? p = l.find? q := by
  induction l with
  | nil => rfl
  | cons a as ih =>
    simp only [List.find?]
    rw [h a (List.mem_cons_self a as)]
    cases hq : q a with
    | true => rfl
    | false => exact ih fun x hx => h x (List.mem_cons_of_mem a hx)

/-- A machine used to settle C5: its single transition is declared with the
empty-string encoding of a blank cache operand, which construction
normalizes away. -/
def cexConfig : Config where
  q_list := ["q0"]
  initial := "q0"
  final := "q0"
  alphabet := ["a"]
  tape_alphabet := ["a"]
  delta := [⟨⟨"q0", some "", some "a"⟩, ⟨"q0", none, some "a", "R"⟩⟩]
  simulation_strings := []

def cexMachine : TuringMachine := TuringMachine.ofConfig cexConfig

/-- C5 counterexample: querying the matcher with the empty-string cache
value, the spec's rule matches the machine's transition, yet the code's
find_transition returns none, because the code never blank-normalizes the
query side of the comparison. -/
theorem C5_counterexample :
    (cexMachine.transitions.any fun t =>
      specMatchesB t "q0" (some "") (some "a")) = true ∧
      cexMachine.find_transition "q0" (some "") (some "a") = none := by
  decide

/-- C5 amended: for machines built from a configuration and queries whose
cache and symbol are not the empty-string encoding, find_transition is
the first transition, in declaration order, matching under the spec's
blank-normalized rule, and none when no transition matches. -/
theorem C5_first_match (c : Config) (state : String)
    (cache symbol : Option String) (hc : cache ≠ some "") (hs : symbol ≠ some "") :
    (TuringMachine.ofConfig c).find_transition state cache symbol =
      (TuringMachine.ofConfig c).transitions.find? fun t =>
        specMatchesB t state cache symbol := by
  unfold TuringMachine.find_transition
  apply find?_congr_pred
  intro t ht
  obtain ⟨d, _, rfl⟩ := List.mem_map.mp ht
  simp [specMatchesB, mkTransition, normBlank_idem, normBlank_eq_self hc,
    normBlank_eq_self hs]

/-- Witness: on the C5 machine with a normalized query, the code matcher
and the spec matcher coincide. -/
theorem C5_first_match_witness :
    (some "x" : Option String) ≠ some "" ∧ (some "a" : Option String) ≠ some "" ∧
      (TuringMachine.ofConfig cexConfig).find_transition "q0" (some "x") (some "a") =
        (TuringMachine.ofConfig cexConfig).transitions.find? (fun t =>
          specMatchesB t "q0" (some "x") (some "a")) :=
  ⟨by decide, by decide,
    C5_first_match cexConfig "q0" (some "x") (some "a") (by decide) (by decide)⟩

/-- Two encodings of one transition field that differ at most by writing
blank as null on one side and as the empty string on the other. -/
def blankLike (a b : Option String) : Prop :=
  a = b ∨ (a = none ∧ b = some "") ∨ (a = some "" ∧ b = none)

/-- Two delta entries identical except possibly for the encoding of blank
operands and results. -/
def deltaBlankEquiv (d e : DeltaItem) : Prop :=
  d.params.initial_state = e.params.initial_state ∧
  blankLike d.params.mem_cache_value e.params.mem_cache_value ∧
  blankLike d.params.tape_input e.params.tape_input ∧
  d.output.final_state = e.output.final_state ∧
  blankLike d.output.mem_cache_value e.output.mem_cache_value ∧
  blankLike d.output.tape_output e.output.tape_output ∧
  d.output.tape_displacement = e.output.tape_displacement

/-- Two configurations identical except possibly for the encoding of blank
transition operands and results. -/
def configBlankEquiv (c1 c2 : Config) : Prop :=
  c1.q_list = c2.q_list ∧ c1.initial = c2.initial ∧ c1.final = c2.final ∧
  c1.alphabet = c2.alphabet ∧ c1.tape_alphabet = c2.tape_alphabet ∧
  c1.simulation_strings = c2.simulation_strings ∧
  List.Forall₂ deltaBlankEquiv c1.delta c2.delta

/-- Blank-like encodings normalize to the same value. -/
theorem blankLike_normBlank {a b : Option String} (h : blankLike a b) :
    normBlank a = normBlank b := by
  rcases h with rfl | ⟨rfl, rfl⟩ | ⟨rfl, rfl⟩
  · rfl
  · simp [normBlank]
  · simp [normBlank]

/-- Construction erases the difference between blank-equivalent delta
entries. -/
theorem deltaBlankEquiv_mkTransition {d e : DeltaItem} (h : deltaBlankEquiv d e) :
    mkTransition d = mkTransition e := by
  obtain ⟨h1, h2, h3, h4, h5, h6, h7⟩ := h
  simp [mkTransition, h1, h4, h7, blankLike_normBlank h2, blankLike_normBlank h3,
    blankLike_normBlank h5, blankLike_normBlank h6]

/-- Construction erases the difference between blank-equivalent delta
lists. -/
theorem map_mkTransition_eq {l1 l2 : List DeltaItem}
    (h : List.Forall₂ deltaBlankEquiv l1 l2) :
    l1.map mkTransition = l2.map mkTransition := by
  induction h with
  | nil => rfl
  | cons hab _ ih => simp [deltaBlankEquiv_mkTransition hab, ih]

/-- Blank-equivalent configurations construct the same machine. -/
theorem ofConfig_blankEquiv {c1 c2 : Config} (h : configBlankEquiv c1 c2) :
    TuringMachine.ofConfig c1 = TuringMachine.ofConfig c2 := by
  obtain ⟨hq, hi, hf, ha, ht, hs, hd⟩ := h
  simp [TuringMachine.ofConfig, hq, hi, hf, ha, ht, hs, map_mkTransition_eq hd]

/-- C6: machines built from configurations that differ only in encoding
blanks as null on one side and as the empty string on the other simulate
every input to the same trace and verdict. -/
theorem C6_blank_equivalence (c1 c2 : Config) (h : configBlankEquiv c1 c2)
    (input : String) :
    (TuringMachine.ofConfig c1).simulate input =
      (TuringMachine.ofConfig c2).simulate input := by
  rw [ofConfig_blankEquiv h]

/-- A configuration encoding blanks as null. -/
def cfgNull : Config where
  q_list := ["q0", "q1"]
  initial := "q0"
  final := "q1"
  alphabet := ["a"]
  tape_alphabet := ["a"]
  delta := [⟨⟨"q0", none, none⟩, ⟨"q1", none, none, "R"⟩⟩]
  simulation_strings := ["a"]

/-- The same configuration encoding blanks as the empty string. -/
def cfgEmpty : Config where
  q_list := ["q0", "q1"]
  initial := "q0"
  final := "q1"
  alphabet := ["a"]
  tape_alphabet := ["a"]
  delta := [⟨⟨"q0", some "", some ""⟩, ⟨"q1", some "", some "", "R"⟩⟩]
  simulation_strings := ["a"]

/-- Witness: the null-encoded and empty-string-encoded configurations
simulate the input a identically. -/
theorem C6_blank_equivalence_witness :
    (TuringMachine.ofConfig cfgNull).simulate "a" =
      (TuringMachine.ofConfig cfgEmpty).simulate "a" :=
  C6_blank_equivalence cfgNull cfgEmpty
    ⟨rfl, rfl, rfl, rfl, rfl, rfl,
      List.Forall₂.cons
        ⟨rfl, Or.inr (Or.inl ⟨rfl, rfl⟩), Or.inr (Or.inl ⟨rfl, rfl⟩), rfl,
          Or.inr (Or.inl ⟨rfl, rfl⟩), Or.inr (Or.inl ⟨rfl, rfl⟩), rfl⟩
        List.Forall₂.nil⟩ "a"

/-- The symbol read by the first loop iteration: the cell under the head
at position 0 after the on-demand extension (blank for the empty input,
otherwise the first input symbol). -/
def initialSymbol (input : String) : Option String :=
  (extendTape (tapeOfInput input) 0).getD (extendPos 0).toNat none

/-- A run whose first iteration finds no transition halts at once: the
trace keeps only the initial snapshot, no step is counted, and the verdict
is false. -/
theorem simulateFull_no_first_transition (M : TuringMachine) (input : String)
    (hno : M.find_transition M.initial_state none (initialSymbol input) = none) :
    M.simulateFull input =
      ⟨[createID (tapeOfInput input) 0 M.initial_state none], false, 0,
        HaltReason.noTransition, extendTape (tapeOfInput input) 0⟩ := by
  have hno' : M.find_transition M.initial_state none
      ((extendTape (tapeOfInput input) 0).getD (extendPos 0).toNat none) = none := hno
  unfold TuringMachine.simulateFull
  have hms : max_steps = 9999 + 1 := rfl
  rw [hms]
  simp only [simLoop, hno']

/-- C7: on a non-empty input whose first symbol admits no transition from
the initial state with blank cache, simulate returns only the initial
snapshot and the verdict false. -/
theorem C7_reject_on_stuck_start (M : TuringMachine) (input : String)
    (c : Char) (rest : List Char) (hin : input.toList = c :: rest)
    (hno : M.find_transition M.initial_state none (some (String.singleton c)) = none) :
    M.simulate input =
      ([createID (tapeOfInput input) 0 M.initial_state none], false) := by
  have h1 : (tapeOfInput input).length = input.toList.length := by
    simp [tapeOfInput]
  have hlen : (0 : Int) < ((tapeOfInput input).length : Int) := by
    rw [h1, hin]
    exact_mod_cast Nat.succ_pos rest.length
  have hext : extendTape (tapeOfInput input) 0 = tapeOfInput input := by
    unfold extendTape
    rw [if_neg (by omega), if_neg (by omega)]
  have hsym : initialSymbol input = some (String.singleton c) := by
    unfold initialSymbol
    rw [hext]
    unfold tapeOfInput
    rw [hin]
    simp [extendPos]
  have h := simulateFull_no_first_transition M input (by rw [hsym]; exact hno)
  unfold TuringMachine.simulate
  rw [h]

/-- A machine with an empty transition table, so that no input symbol
admits a move. -/
def stuckConfig : Config where
  q_list := ["q0", "q1"]
  initial := "q0"
  final := "q1"
  alphabet := ["a"]
  tape_alphabet := ["a"]
  delta := []
  simulation_strings := []

def stuckMachine : TuringMachine := TuringMachine.ofConfig stuckConfig

/-- Witness: the transitionless machine rejects the input a with the
one-entry trace. -/
theorem C7_reject_on_stuck_start_witness :
    stuckMachine.simulate "a" =
      ([createID (tapeOfInput "a") 0 stuckMachine.initial_state none], false) :=
  C7_reject_on_stuck_start stuckMachine "a" 'a' [] rfl rfl

/-- C10: the final-state check runs only after a transition was applied,
so a machine whose initial state equals its final state still rejects,
with the one-entry trace, any input whose initial configuration admits no
transition; it never accepts at step zero. -/
theorem C10_no_step_zero_acceptance (M : TuringMachine) (input : String)
    (hif : M.initial_state = M.final_state)
    (hno : M.find_transition M.initial_state none (initialSymbol input) = none) :
    (M.simulate input).2 = false ∧
      (M.simulate input).1 =
        [createID (tapeOfInput input) 0 M.initial_state none] := by
  have h := simulateFull_no_first_transition M input hno
  unfold TuringMachine.simulate
  rw [h]
  exact ⟨rfl, rfl⟩

/-- A machine whose initial state is also its final state and whose
transition table is empty. -/
def selfFinalConfig : Config where
  q_list := ["q0"]
  initial := "q0"
  final := "q0"
  alphabet := ["a"]
  tape_alphabet := ["a"]
  delta := []
  simulation_strings := []

def selfFinalMachine : TuringMachine := TuringMachine.ofConfig selfFinalConfig

/-- Witness: the machine whose initial state is final still rejects the
input a at step zero. -/
theorem C10_no_step_zero_acceptance_witness :
    (selfFinalMachine.simulate "a").2 = false ∧
      (selfFinalMachine.simulate "a").1 =
        [createID (tapeOfInput "a") 0 selfFinalMachine.initial_state none] :=
  C10_no_step_zero_acceptance selfFinalMachine "a" rfl rfl

/-- Rendering of a run of tape cells, every blank as the literal B
(spec section 4.4). -/
def renderCells (cells : List (Option String)) : String :=
  String.join (cells.map symbolToStr)

/-- The bracketed marker of spec section 4.4: [state] when the cache is
blank, [state,cache] when it is not. -/
def stateMarker (state : String) (cache : Option String) : String :=
  match cache with
  | none => "[" ++ state ++ "]"
  | some c => "[" ++ state ++ "," ++ c ++ "]"

/-- Renderer formulated from the words of spec section 4.4: left-of-head
content, marker, symbol under the head, right-of-head content; head left
of the tape gives marker, one B, whole tape; head right of the tape gives
whole tape, marker, one B. -/
def createID_spec (tape : List (Option String)) (position : Int)
    (state : String) (cache : Option String) : String :=
  if position < 0 then
    stateMarker state cache ++ "B" ++ renderCells tape
  else if position ≥ (tape.length : Int) then
    renderCells tape ++ stateMarker state cache ++ "B"
  else
    renderCells (tape.take position.toNat) ++ stateMarker state cache ++
      symbolToStr (tape.getD position.toNat none) ++
      renderCells (tape.drop (position.toNat + 1))

/-- C8: the instantaneous-description renderer of the code agrees with the
format spelled out in the spec, on every tape, head position, state and
cache value, including the out-of-tape edge cases. -/
theorem C8_renderer (tape : List (Option String)) (position : Int)
    (state : String) (cache : Option String) :
    createID tape position state cache = createID_spec tape position state cache := by
  have hmarker :
      ("[" ++ state ++ (match cache with | none => "" | some c => "," ++ c) ++ "]") =
        stateMarker state cache := by
    cases cache with
    | none => simp [stateMarker]
    | some c => simp [stateMarker, String.append_assoc]
  simp only [createID, createID_spec, renderCells, hmarker]

/-- The extension step never shortens the tape. -/
theorem extendTape_length (tape : List (Option String)) (pos : Int) :
    tape.length ≤ (extendTape tape pos).length := by
  unfold extendTape
  split
  · simp
  · split <;> simp

/-- The loop never shortens the tape it was given. -/
theorem simLoop_finalTape_le (M : TuringMachine) (fuel : Nat) :
    ∀ tape pos state cache,
      tape.length ≤ (simLoop M fuel tape pos state cache).finalTape.length := by
  induction fuel with
  | zero => intro tape pos state cache; exact Nat.le_refl _
  | succ n ih =>
    intro tape pos state cache
    simp only [simLoop]
    cases hf : M.find_transition state cache
        ((extendTape tape pos).getD (extendPos pos).toNat none) with
    | none => exact extendTape_length tape pos
    | some t =>
      by_cases hs : t.final_state = M.final_state
      · simp only [hs, if_true]
        simpa [List.length_set] using extendTape_length tape pos
      · simp only [hs, if_false]
        exact le_trans
          (by simpa [List.length_set] using extendTape_length tape pos)
          (ih _ _ _ _)

/-- C9: tape growth during a run is monotonic: the on-demand extension
puts the accessed position on a real cell, every extension keeps the
existing cells in order, only adding a blank at one end, and the loop
never shrinks the tape, even when a cell is rewritten to blank. -/
theorem C9_tape_growth :
    (∀ (tape : List (Option String)) (pos : Int), -1 ≤ pos →
        pos ≤ (tape.length : Int) →
          0 ≤ extendPos pos ∧ (extendPos pos).toNat < (extendTape tape pos).length) ∧
    (∀ (tape : List (Option String)) (pos : Int),
        extendTape tape pos = tape ∨ extendTape tape pos = none :: tape ∨
          extendTape tape pos = tape ++ [none]) ∧
    (∀ (M : TuringMachine) (fuel : Nat) (tape : List (Option String)) (pos : Int)
        (state : String) (cache : Option String),
        tape.length ≤ (simLoop M fuel tape pos state cache).finalTape.length) := by
  refine ⟨?_, ?_, ?_⟩
  · intro tape pos h1 h2
    unfold extendPos extendTape
    split_ifs with hneg hge
    · refine ⟨le_refl 0, ?_⟩
      simp
    · refine ⟨by omega, ?_⟩
      simp only [List.length_append, List.length_cons, List.length_nil]
      omega
    · exact ⟨by omega, by omega⟩
  · intro tape pos
    unfold extendTape
    split_ifs <;> simp
  · intro M fuel tape pos state cache
    exact simLoop_finalTape_le M fuel tape pos state cache

/-- Witness: the pieces of C9 evaluated at concrete tapes, positions and a
concrete run. -/
theorem C9_tape_growth_witness :
    (0 ≤ extendPos (-1) ∧
      (extendPos (-1)).toNat < (extendTape [some "a"] (-1)).length) ∧
    (extendTape [some "a"] 1 = [some "a"] ∨
      extendTape [some "a"] 1 = none :: [some "a"] ∨
      extendTape [some "a"] 1 = [some "a"] ++ [none]) ∧
    ([some "a"] : List (Option String)).length ≤
      (simLoop exampleMachine 5 [some "a"] 0 "q0" none).finalTape.length :=
  ⟨C9_tape_growth.1 [some "a"] (-1) (by decide) (by decide),
    C9_tape_growth.2.1 [some "a"] 1,
    C9_tape_growth.2.2 exampleMachine 5 [some "a"] 0 "q0" none⟩

/-- Witness: the transitionless machine halts for lack of a transition and
C3 turns that halt into the verdict false next to the collected trace. -/
theorem C3_accept_iff_final_witness :
    stuckMachine.simulate "a" = ((stuckMachine.simulateFull "a").trace, false) :=
  (C3_accept_iff_final stuckMachine "a").2
    (Or.inl ((simulateFull_reason stuckMachine "a").trans rfl))
